import Mathlib

/-!
Verification of the elixir-projects subsystem (src/tools/elixir_projects.rs).

The Rust code is shallowly embedded: paths and file contents are strings,
the filesystem and the external command runner are explicit values threaded
through the functions, and each Rust handler becomes a Lean function of the
same name returning the report text (the payload of CallToolResult) together
with the updated filesystem.
-/

namespace Steve

/-! ## String utilities mirroring the Rust standard library -/

/-- Core of character splitting: the chunk before the first separator and the
remaining chunks. -/
def splitCharCore (sep : Char) : List Char → List Char × List (List Char)
  | [] => ([], [])
  | a :: as =>
    let r := splitCharCore sep as
    if a = sep then ([], r.1 :: r.2) else (a :: r.1, r.2)

/-- Splits a character list at every occurrence of the separator; always
returns at least one (possibly empty) chunk. -/
def splitChar (sep : Char) (l : List Char) : List (List Char) :=
  (splitCharCore sep l).1 :: (splitCharCore sep l).2

/-- Removes one final carriage return, as the lines iterators do. -/
def stripCr (l : List Char) : List Char :=
  if l.getLast? = some '\r' then l.dropLast else l

/-- Drops the trailing empty chunk produced by a final newline or by empty
input, which the lines iterators never yield. -/
def dropTrailingEmpty (parts : List (List Char)) : List (List Char) :=
  if parts.getLast? = some [] then parts.dropLast else parts

/-- Models the lines iterator of BufRead and str: the chunks between newline
characters, without the trailing empty chunk produced by a final newline or
by empty input, each with a final carriage return stripped. -/
def rustLines (s : String) : List String :=
  (dropTrailingEmpty (splitChar '\n' s.data)).map (fun l => String.mk (stripCr l))

/-- Appends every entry followed by a newline, as the repeated writeln calls
of the save functions do. -/
def serializeLines : List String → String
  | [] => ""
  | x :: xs => x ++ "\n" ++ serializeLines xs

/-- Joins with a separator, as slice join does. -/
def joinStr (sep : String) : List String → String
  | [] => ""
  | [x] => x
  | x :: y :: xs => x ++ sep ++ joinStr sep (y :: xs)

/-- Tests whether the first list starts with the second. -/
def hasPrefChars : List Char → List Char → Bool
  | _, [] => true
  | [], _ :: _ => false
  | a :: as, b :: bs => a == b && hasPrefChars as bs

/-- Tests whether the pattern occurs as a contiguous sublist. -/
def subChars (pat : List Char) : List Char → Bool
  | [] => pat.isEmpty
  | a :: as => hasPrefChars (a :: as) pat || subChars pat as

/-- Substring test, as str contains with a string pattern. -/
def hasSub (s pat : String) : Bool :=
  subChars pat.data s.data

/-- Lowercasing as to_lowercase; the project names involved are ASCII and
Char.toLower implements the ASCII case mapping. -/
def lowerStr (s : String) : String :=
  String.mk (s.data.map Char.toLower)

/-- Trims whitespace from both ends, as str trim. -/
def trimChars (l : List Char) : List Char :=
  ((l.dropWhile Char.isWhitespace).reverse.dropWhile Char.isWhitespace).reverse

/-- Mirrors Path join with a relative component. -/
def pathJoin (p s : String) : String :=
  if p = "" then s
  else if p.data.getLast? = some '/' then p ++ s
  else p ++ "/" ++ s

/-- Mirrors Path file_name composed with to_string_lossy: the last
non-empty, non-dot component of the path, none when the path ends in a
parent reference or has no component at all. -/
def fileName (p : String) : Option String :=
  let segs := (splitChar '/' p.data).filter (fun l => !l.isEmpty && !(l == ['.']))
  match segs.getLast? with
  | none => none
  | some l => if l = ['.', '.'] then none else some (String.mk l)

/-- The name used in reports: file_name when available, otherwise the full
display of the path. -/
def displayName (p : String) : String :=
  (fileName p).getD p

/-- Mirrors lines next unwrap_or applied to a captured stderr. -/
def firstLineOr (s : String) : String :=
  ((rustLines s).head?).getD "failed"

/-- Lexicographic order on character lists, the order of PathBuf sort for
the paths involved. -/
def charListLe : List Char → List Char → Bool
  | [], _ => true
  | _ :: _, [] => false
  | a :: as, b :: bs => if a = b then charListLe as bs else decide (a < b)

/-- Insertion step of the sorting used to model Vec sort. -/
def insertSorted (x : String) : List String → List String
  | [] => [x]
  | y :: ys => if charListLe y.data x.data then y :: insertSorted x ys else x :: y :: ys

/-- Sorting used to model Vec sort on paths. -/
def sortStrings : List String → List String
  | [] => []
  | x :: xs => insertSorted x (sortStrings xs)

/-! ## The environment -/

/-- The parts of the machine state the subsystem reads and writes. The two
persisted files are modelled by their contents; the WalkDir traversal of
scan_elixir_projects is abstracted by the scanHits field, which gives the
parent directories of the mix.exs files found by the walk (with its
deny-list pruning) below a given root, before sorting. -/
structure FS where
  /-- Content of the cache file; none when the file is absent or unreadable. -/
  cacheFile : Option String
  /-- Content of the ignore file; none when the file is absent or unreadable. -/
  ignoreFile : Option String
  /-- Path existence, as Path exists. -/
  pathExists : String → Bool
  /-- Directories directly containing a mix.exs file, as enumerated by the
  WalkDir traversal from the given root. -/
  scanHits : String → List String
  /-- The home directory, as dirs home_dir. -/
  home : Option String

/-- Result of a finished external command: exit-status success flag and the
captured output streams. -/
structure CmdOut where
  success : Bool
  stdout : String
  stderr : String

/-- The external world: running a command (program, arguments, working
directory) either returns a CmdOut or fails to spawn with an error message;
remove_dir_all either succeeds or fails, possibly changing the filesystem. -/
structure Env where
  run : String → List String → String → Except String CmdOut
  removeDirAll : String → FS → Except String Unit × FS

/-- Mirrors ElixirProjectsRequest. -/
structure ElixirProjectsRequest where
  action : String
  project : Option String
  path : Option String

/-! ## Ignore store and project cache -/

/-- Mirrors load_ignored_projects: the de-duplicated lines of the ignore
file, empty when the file is absent; the HashSet is represented as the
de-duplicated list. -/
def load_ignored_projects (fs : FS) : List String :=
  match fs.ignoreFile with
  | none => []
  | some content => (rustLines content).dedup

/-- Mirrors save_ignored_projects, writing one name per line. -/
def save_ignored_projects (fs : FS) (ignored : List String) : FS :=
  { fs with ignoreFile := some (serializeLines ignored) }

/-- The per-line validity check of load_projects_from_cache: the path still
exists and still directly contains mix.exs. -/
def entryValid (fs : FS) (p : String) : Bool :=
  fs.pathExists p && fs.pathExists (pathJoin p "mix.exs")

/-- Mirrors save_projects_to_cache, writing one path per line. -/
def save_projects_to_cache (fs : FS) (projects : List String) : FS :=
  { fs with cacheFile := some (serializeLines projects) }

/-- Mirrors load_projects_from_cache: none when the cache file is absent;
otherwise the lines still passing entryValid, with the pruned list written
back when any line was dropped. -/
def load_projects_from_cache (fs : FS) : Option (List String) × FS :=
  match fs.cacheFile with
  | none => (none, fs)
  | some content =>
    let ls := rustLines content
    let projects := ls.filter (entryValid fs)
    if ls.any (fun l => !entryValid fs l) then
      (some projects, save_projects_to_cache fs projects)
    else
      (some projects, fs)

/-! ## Discovery scanner and resolver -/

/-- Mirrors scan_elixir_projects: resolve the start path (tilde expansion,
default root under home), return the empty set when it does not exist,
otherwise the sorted directories found by the walk. -/
def scan_elixir_projects (fs : FS) (path : Option String) : List String :=
  let default_path := match fs.home with
    | some h => h ++ "/src/flt"
    | none => "."
  let start_path := match path with
    | none => default_path
    | some p =>
      if hasPrefChars p.data ['~', '/'] then
        match fs.home with
        | some h => h ++ "/" ++ String.mk (p.data.drop 2)
        | none => p
      else p
  if fs.pathExists start_path then sortStrings (fs.scanHits start_path)
  else []

/-- The filter_ignored closure inside get_elixir_projects: keep a project
unless its file_name is present verbatim in the ignored set. -/
def filterIgnored (ignored : List String) (projects : List String) : List String :=
  projects.filter (fun p =>
    match fileName p with
    | some n => !ignored.contains n
    | none => true)

/-- Mirrors get_elixir_projects: explicit path always scans; otherwise the
cache is used unless force_refresh; otherwise scan and persist. Ignore
filtering is applied on every branch. -/
def get_elixir_projects (fs : FS) (path : Option String) (force_refresh : Bool) :
    List String × FS :=
  let ignored := load_ignored_projects fs
  match path with
  | some _ => (filterIgnored ignored (scan_elixir_projects fs path), fs)
  | none =>
    if force_refresh then
      let projects := scan_elixir_projects fs none
      (filterIgnored ignored projects, save_projects_to_cache fs projects)
    else
      match load_projects_from_cache fs with
      | (some projects, fs1) => (filterIgnored ignored projects, fs1)
      | (none, fs1) =>
        let projects := scan_elixir_projects fs1 none
        (filterIgnored ignored projects, save_projects_to_cache fs1 projects)

/-! ## Batch command runner -/

/-- Mirrors handle_refresh. -/
def handle_refresh (projects : List String) : String :=
  "Refreshed project cache. Found " ++ toString projects.length ++
    " Elixir projects:\n" ++ joinStr "\n" projects

/-- Mirrors handle_list. -/
def handle_list (projects : List String) : String :=
  if projects.isEmpty then "No Elixir projects found"
  else
    "Found " ++ toString projects.length ++ " projects: " ++
      joinStr ", " (projects.map displayName)

/-- The per-project status string of handle_update_deps. -/
def updateStatus (r : Except String CmdOut) : String :=
  match r with
  | Except.ok o => if o.success then "✓" else "✗ " ++ firstLineOr o.stderr
  | Except.error e => "✗ " ++ e

/-- Mirrors handle_update_deps. -/
def handle_update_deps (env : Env) (projects : List String) : String :=
  if projects.isEmpty then "No Elixir projects found"
  else
    let results := projects.map (fun p =>
      updateStatus (env.run "mix" ["deps.update", "--all"] p) ++ " " ++ p)
    "Updated " ++ toString projects.length ++ " projects:\n" ++ joinStr "\n" results

/-- The dependency-line extraction of handle_outdated. -/
def outdatedDepLines (stdout : String) : List String :=
  (rustLines stdout).filter (fun line =>
    hasSub line "->" ||
      (hasPrefChars line.data [' ', ' '] && !(trimChars line.data).isEmpty &&
        !hasSub line "Dependency"))

/-- One loop iteration of handle_outdated: the optional block pushed to the
results and whether the project was counted as having outdated
dependencies. -/
def outdatedEntry (env : Env) (p : String) : Option String × Bool :=
  match env.run "mix" ["hex.outdated"] p with
  | Except.ok o =>
    if !o.success || hasSub o.stdout "Newer versions" then
      let deps := outdatedDepLines o.stdout
      if deps.isEmpty then (none, true)
      else
        (some ("\n📦 " ++ displayName p ++ " (" ++ toString deps.length ++
          " outdated):\n  " ++ joinStr "\n  " deps), true)
    else (none, false)
  | Except.error e => (some ("\n✗ " ++ displayName p ++ " - error: " ++ e), false)

/-- The results vector accumulated by the handle_outdated loop. -/
def outdatedResults (env : Env) (projects : List String) : List String :=
  projects.filterMap (fun p => (outdatedEntry env p).1)

/-- The projects_with_outdated counter of the handle_outdated loop. -/
def outdatedFlagged (env : Env) (projects : List String) : Nat :=
  (projects.filter (fun p => (outdatedEntry env p).2)).length

/-- Mirrors handle_outdated. -/
def handle_outdated (env : Env) (projects : List String) : String :=
  if projects.isEmpty then "No Elixir projects found"
  else if outdatedFlagged env projects = 0 then
    "All " ++ toString projects.length ++ " projects are up to date!"
  else
    toString (outdatedFlagged env projects) ++ "/" ++ toString projects.length ++
      " projects have outdated dependencies:" ++ joinStr "" (outdatedResults env projects)

/-- The per-project status string of handle_git_pull; on success the marker
is looked for in the captured standard output. -/
def pullStatus (r : Except String CmdOut) : String :=
  match r with
  | Except.ok o =>
    if o.success then
      if hasSub o.stdout "Already up to date" then "✓ (up to date)" else "✓ (updated)"
    else "✗ " ++ firstLineOr o.stderr
  | Except.error e => "✗ " ++ e

/-- Mirrors handle_git_pull. -/
def handle_git_pull (env : Env) (projects : List String) : String :=
  if projects.isEmpty then "No Elixir projects found"
  else
    let results := projects.map (fun p =>
      displayName p ++ " " ++ pullStatus (env.run "git" ["pull"] p))
    "Git pull on " ++ toString projects.length ++ " projects:\n" ++ joinStr "\n" results

/-- The per-project status string of handle_git_push; on success the marker
is looked for in the captured standard error. -/
def pushStatus (r : Except String CmdOut) : String :=
  match r with
  | Except.ok o =>
    if o.success then
      if hasSub o.stderr "Everything up-to-date" then "✓ (up to date)" else "✓ (pushed)"
    else "✗ " ++ firstLineOr o.stderr
  | Except.error e => "✗ " ++ e

/-- Mirrors handle_git_push. -/
def handle_git_push (env : Env) (projects : List String) : String :=
  if projects.isEmpty then "No Elixir projects found"
  else
    let results := projects.map (fun p =>
      displayName p ++ " " ++ pushStatus (env.run "git" ["push"] p))
    "Git push on " ++ toString projects.length ++ " projects:\n" ++ joinStr "\n" results

/-- The porcelain-status probe of handle_git_status. -/
def gitHasChanges (env : Env) (p : String) : Bool :=
  match env.run "git" ["status", "--porcelain"] p with
  | Except.ok o => !(o.stdout == "")
  | Except.error _ => false

/-- The branch-porcelain probe of handle_git_status. -/
def gitIsAhead (env : Env) (p : String) : Bool :=
  match env.run "git" ["status", "--branch", "--porcelain=v2"] p with
  | Except.ok o => hasSub o.stdout "ahead"
  | Except.error _ => false

/-- Mirrors handle_git_status. -/
def handle_git_status (env : Env) (projects : List String) : String :=
  if projects.isEmpty then "No Elixir projects found"
  else
    let dirty := (projects.filter (gitHasChanges env)).map displayName
    let ahead := (projects.filter (gitIsAhead env)).map displayName
    let cleanCount :=
      (projects.filter (fun p => !gitHasChanges env p && !gitIsAhead env p)).length
    if dirty.isEmpty && ahead.isEmpty then
      "✅ All " ++ toString projects.length ++ " projects are clean and pushed!"
    else
      (if dirty.isEmpty then "" else
        "⚠️  Uncommitted changes (" ++ toString dirty.length ++ "):\n  " ++
          joinStr "\n  " dirty ++ "\n\n") ++
      (if ahead.isEmpty then "" else
        "📤 Unpushed commits (" ++ toString ahead.length ++ "):\n  " ++
          joinStr "\n  " ahead ++ "\n\n") ++
      ("✓ " ++ toString cleanCount ++ " projects clean")

/-- The removal loop of handle_delete, threading the filesystem through the
remove_dir_all calls. -/
def deleteLoop (env : Env) : FS → List String → List String × FS
  | fs, [] => ([], fs)
  | fs, p :: ps =>
    let name := displayName p
    match env.removeDirAll p fs with
    | (Except.ok _, fs1) =>
      let r := deleteLoop env fs1 ps
      (("✓ Deleted " ++ name) :: r.1, r.2)
    | (Except.error e, fs1) =>
      let r := deleteLoop env fs1 ps
      (("✗ Failed to delete " ++ name ++ ": " ++ e) :: r.1, r.2)

/-- Mirrors handle_delete: refuse without a project filter; report the
empty-set message on an empty filtered set; otherwise remove every matched
directory, then rescan the default root and overwrite the cache. -/
def handle_delete (env : Env) (fs : FS) (projects : List String)
    (req : ElixirProjectsRequest) : String × FS :=
  match req.project with
  | none => ("Error: \x27project\x27 filter is required for delete action", fs)
  | some _ =>
    if projects.isEmpty then ("No matching projects found", fs)
    else
      let r := deleteLoop env fs projects
      let fs2 := save_projects_to_cache r.2 (scan_elixir_projects r.2 none)
      (joinStr "\n" r.1, fs2)

/-- The adding loop of handle_ignore over the known projects, carrying the
ignored set and the added list. -/
def ignoreAddLoop (filter : String) (ignored added : List String) :
    List String → List String × List String
  | [] => (ignored, added)
  | p :: ps =>
    match fileName p with
    | some name =>
      if hasSub (lowerStr name) filter && !ignored.contains name then
        ignoreAddLoop filter (ignored ++ [name]) (added ++ [name]) ps
      else ignoreAddLoop filter ignored added ps
    | none => ignoreAddLoop filter ignored added ps

/-- Mirrors handle_ignore: without a filter list the ignored names; with a
filter add every known project whose lowercased name contains the lowercased
filter and is not yet ignored, persisting when anything was added. -/
def handle_ignore (fs : FS) (req : ElixirProjectsRequest) : String × FS :=
  match req.project with
  | none =>
    let ignored := load_ignored_projects fs
    if ignored.isEmpty then ("No projects are currently ignored", fs)
    else ("Ignored projects: " ++ joinStr ", " (sortStrings ignored), fs)
  | some f =>
    let ignored := load_ignored_projects fs
    let pair := load_projects_from_cache fs
    let all_projects := match pair.1 with
      | some cached => cached
      | none => scan_elixir_projects pair.2 req.path
    let r := ignoreAddLoop (lowerStr f) ignored [] all_projects
    if r.2.isEmpty then ("No matching projects found to ignore", pair.2)
    else ("Ignored: " ++ joinStr ", " r.2, save_ignored_projects pair.2 r.1)

/-- Mirrors handle_unignore: the filter is required; every ignored entry
whose lowercased name contains the lowercased filter is removed. -/
def handle_unignore (fs : FS) (req : ElixirProjectsRequest) : String × FS :=
  match req.project with
  | none => ("Error: \x27project\x27 filter is required for unignore action", fs)
  | some f =>
    let ignored := load_ignored_projects fs
    let removed := ignored.filter (fun name => hasSub (lowerStr name) (lowerStr f))
    let remaining := ignored.filter (fun name => !hasSub (lowerStr name) (lowerStr f))
    if removed.isEmpty then ("No matching ignored projects found", fs)
    else ("Unignored: " ++ joinStr ", " removed, save_ignored_projects fs remaining)

/-! ## Request dispatcher -/

/-- The listing in the unknown-action message. -/
def unknownActionMsg (action : String) : String :=
  "Unknown action \x27" ++ action ++
    "\x27. Use: list, update_deps, outdated, git_pull, git_push, git_status, refresh, delete, ignore, unignore"

/-- Mirrors handle_elixir_projects: resolve the project set, apply the
optional case-insensitive substring filter on names, then dispatch on the
action string. -/
def handle_elixir_projects (env : Env) (fs : FS) (req : ElixirProjectsRequest) :
    String × FS :=
  let resolved := get_elixir_projects fs req.path (req.action == "refresh")
  let fs1 := resolved.2
  let projects := match req.project with
    | none => resolved.1
    | some f =>
      resolved.1.filter (fun p =>
        match fileName p with
        | some n => hasSub (lowerStr n) (lowerStr f)
        | none => false)
  if req.action = "refresh" then (handle_refresh projects, fs1)
  else if req.action = "list" then (handle_list projects, fs1)
  else if req.action = "update_deps" then (handle_update_deps env projects, fs1)
  else if req.action = "outdated" then (handle_outdated env projects, fs1)
  else if req.action = "git_pull" then (handle_git_pull env projects, fs1)
  else if req.action = "git_push" then (handle_git_push env projects, fs1)
  else if req.action = "git_status" then (handle_git_status env projects, fs1)
  else if req.action = "delete" then handle_delete env fs1 projects req
  else if req.action = "ignore" then handle_ignore fs1 req
  else if req.action = "unignore" then handle_unignore fs1 req
  else (unknownActionMsg req.action, fs1)

/-! ## Concrete fixtures for instantiating the theorems -/

/-- A path string that survives the line-based serialization: it contains no
newline and does not end in a carriage return. -/
def wfPath (s : String) : Prop :=
  '\n' ∉ s.data ∧ s.data.getLast? ≠ some '\r'

instance (s : String) : Decidable (wfPath s) :=
  inferInstanceAs (Decidable ('\n' ∉ s.data ∧ s.data.getLast? ≠ some '\r'))

/-- An environment whose commands never spawn and whose removals all fail. -/
def envFail : Env :=
  { run := fun _ _ _ => Except.error "boom"
    removeDirAll := fun _ fs => (Except.error "denied", fs) }

/-- An environment whose removals succeed, erasing the removed path from the
existence predicate. -/
def envRemove : Env :=
  { run := fun _ _ _ => Except.error "boom"
    removeDirAll := fun p fs =>
      (Except.ok (), { fs with pathExists := fun q => !(q == p) && fs.pathExists q }) }

/-- A filesystem holding one cached, existing project /r/b. -/
def fsDelete : FS :=
  { cacheFile := some "/r/b\n"
    ignoreFile := none
    pathExists := fun s => s == "/r/b" || s == "/r/b/mix.exs" || s == "/h/src/flt"
    scanHits := fun _ => []
    home := some "/h" }

/-- A filesystem with no cache, an ignore entry b, and a scan that finds two
projects under the default root. -/
def fsScan : FS :=
  { cacheFile := none
    ignoreFile := some "b\n"
    pathExists := fun s => s == "/h/src/flt"
    scanHits := fun _ => ["/r/b", "/r/a"]
    home := some "/h" }

/-- A filesystem where /r/ok exists and qualifies while /r/gone does not. -/
def fsPlain : FS :=
  { cacheFile := none
    ignoreFile := none
    pathExists := fun s => s == "/r/ok" || s == "/r/ok/mix.exs"
    scanHits := fun _ => []
    home := some "/h" }

/-- A delete request whose filter is the empty string. -/
def reqDeleteEmptyFilter : ElixirProjectsRequest :=
  { action := "delete", project := some "", path := none }

/-- A delete request with filter x. -/
def reqDeleteX : ElixirProjectsRequest :=
  { action := "delete", project := some "x", path := none }

/-- A delete request with no filter. -/
def reqDeleteNone : ElixirProjectsRequest :=
  { action := "delete", project := none, path := none }

/-- A delete request with filter b. -/
def reqDeleteB : ElixirProjectsRequest :=
  { action := "delete", project := some "b", path := none }

/-- A request with an unrecognized action name. -/
def reqBogus : ElixirProjectsRequest :=
  { action := "bogus", project := none, path := none }

/-- A successful command output containing both up-to-date markers. -/
def outBoth : CmdOut :=
  { success := true, stdout := "Already up to date.", stderr := "Everything up-to-date" }

/-! ## Helper lemmas -/

theorem splitCharCore_append (sep : Char) (r : List Char) :
    ∀ x : List Char, sep ∉ x →
      splitCharCore sep (x ++ sep :: r) =
        (x, (splitCharCore sep r).1 :: (splitCharCore sep r).2) := by
  intro x
  induction x with
  | nil => intro _; simp [splitCharCore]
  | cons a as ih =>
    intro h
    have ha : ¬ a = sep := fun hh => h (hh ▸ List.mem_cons_self a as)
    have has : sep ∉ as := fun hh => h (List.mem_cons_of_mem a hh)
    simp [splitCharCore, ih has, ha]

theorem splitChar_serializeLines :
    ∀ ps : List String, (∀ x ∈ ps, '\n' ∉ x.data) →
      splitChar '\n' (serializeLines ps).data = ps.map String.data ++ [[]] := by
  intro ps
  induction ps with
  | nil => intro _; rfl
  | cons x xs ih =>
    intro h
    have hx : '\n' ∉ x.data := h x (List.mem_cons_self x xs)
    have hxs : ∀ y ∈ xs, '\n' ∉ y.data := fun y hy => h y (List.mem_cons_of_mem x hy)
    have hdata : (serializeLines (x :: xs)).data =
        x.data ++ '\n' :: (serializeLines xs).data := by
      show (x ++ "\n" ++ serializeLines xs).data = _
      rw [String.data_append, String.data_append, List.append_assoc]
      rfl
    rw [hdata]
    unfold splitChar
    rw [splitCharCore_append '\n' (serializeLines xs).data x.data hx]
    have := ih hxs
    unfold splitChar at this
    simp only [List.map_cons, List.cons_append]
    rw [← this]

theorem map_mk_stripCr :
    ∀ ps : List String, (∀ x ∈ ps, x.data.getLast? ≠ some '\r') →
      (ps.map String.data).map (fun l => String.mk (stripCr l)) = ps := by
  intro ps
  induction ps with
  | nil => intro _; rfl
  | cons x xs ih =>
    intro h
    simp only [List.map_cons]
    rw [show stripCr x.data = x.data from
      if_neg (h x (List.mem_cons_self x xs))]
    rw [ih (fun y hy => h y (List.mem_cons_of_mem x hy))]

/-- Round trip of the line serialization for well-formed entries. -/
theorem rustLines_serializeLines (ps : List String) (h : ∀ x ∈ ps, wfPath x) :
    rustLines (serializeLines ps) = ps := by
  unfold rustLines dropTrailingEmpty
  rw [splitChar_serializeLines ps (fun x hx => (h x hx).1)]
  rw [if_pos (List.getLast?_concat _), List.dropLast_concat]
  exact map_mk_stripCr ps (fun x hx => (h x hx).2)

/-- Membership in the resolution-time ignore filter. -/
theorem mem_filterIgnored {I P : List String} {p : String} :
    p ∈ filterIgnored I P ↔ p ∈ P ∧ ∀ n, fileName p = some n → n ∉ I := by
  unfold filterIgnored
  rw [List.mem_filter]
  refine and_congr_right fun _ => ?_
  cases h : fileName p with
  | none => simp [h]
  | some n => simp [h]

/-- Unfolding equation of the cache load when the cache file is present. -/
theorem load_projects_from_cache_some (fs : FS) (c : String)
    (h : fs.cacheFile = some c) :
    load_projects_from_cache fs =
      (let ls := rustLines c
       let projects := ls.filter (entryValid fs)
       if ls.any (fun l => !entryValid fs l) then
         (some projects, save_projects_to_cache fs projects)
       else (some projects, fs)) := by
  unfold load_projects_from_cache
  rw [h]

/-- Loading right after saving, with every entry valid, changes nothing. -/
theorem load_after_save (fs : FS) (ps : List String)
    (hwf : ∀ x ∈ ps, wfPath x)
    (hvalid : ∀ x ∈ ps, entryValid fs x = true) :
    load_projects_from_cache (save_projects_to_cache fs ps) =
      (some ps, save_projects_to_cache fs ps) := by
  have hvalid' : ∀ x ∈ ps, entryValid (save_projects_to_cache fs ps) x = true :=
    fun x hx => hvalid x hx
  rw [load_projects_from_cache_some (save_projects_to_cache fs ps) (serializeLines ps) rfl]
  simp only
  rw [rustLines_serializeLines ps hwf]
  rw [List.filter_eq_self.mpr hvalid']
  have hany : (ps.any fun l => !entryValid (save_projects_to_cache fs ps) l) = false := by
    rw [List.any_eq_false]
    intro x hx
    rw [hvalid' x hx]
    simp
  rw [if_neg (by rw [hany]; simp)]

theorem not_mem_ignored_of_mem_filterIgnored {I P : List String} {p n : String}
    (hp : p ∈ filterIgnored I P) (hn : fileName p = some n) : n ∉ I :=
  (mem_filterIgnored.mp hp).2 n hn

/-! ## Claim theorems -/

/-- C2: for all Project Sets P and Ignore Sets I, resolution with I applied
removes exactly those projects whose display name (final path segment) is
verbatim an element of I and no others — an exact, case-sensitive membership
test, independent of how I was populated. -/
theorem C2_ignore_filtering_exact (I P : List String) (p : String) :
    p ∈ filterIgnored I P ↔ p ∈ P ∧ ∀ n, fileName p = some n → n ∉ I :=
  mem_filterIgnored

/-- C3: saving a Project Set to the cache and then loading it, when every
saved path still exists and still directly contains mix.exs (the paths being
well formed for the line-based serialization), yields the same Project Set
in the same order. -/
theorem C3_cache_roundtrip (fs : FS) (ps : List String)
    (hwf : ∀ x ∈ ps, wfPath x)
    (hvalid : ∀ x ∈ ps, entryValid fs x = true) :
    (load_projects_from_cache (save_projects_to_cache fs ps)).1 = some ps := by
  rw [load_after_save fs ps hwf hvalid]

/-- C3 witness: a concrete save-then-load round trip. -/
theorem C3_cache_roundtrip_witness :
    (∀ x ∈ ["/r/ok"], wfPath x) ∧
    (∀ x ∈ ["/r/ok"], entryValid fsPlain x = true) ∧
    (load_projects_from_cache (save_projects_to_cache fsPlain ["/r/ok"])).1 =
      some ["/r/ok"] :=
  ⟨by decide, by decide, C3_cache_roundtrip fsPlain ["/r/ok"] (by decide) (by decide)⟩

/-- C4: loading a cache holding one vanished (or no-longer-qualifying) path
and one valid path returns only the valid path and rewrites the pruned set
back to the cache file; a second load with no intervening mutation returns
the same single-entry result and performs no further rewrite. -/
theorem C4_self_healing_idempotent (fs : FS) (g v : String)
    (hg : entryValid fs g = false) (hv : entryValid fs v = true)
    (hwg : wfPath g) (hwv : wfPath v) :
    load_projects_from_cache { fs with cacheFile := some (serializeLines [g, v]) } =
      (some [v], { fs with cacheFile := some (serializeLines [v]) }) ∧
    load_projects_from_cache { fs with cacheFile := some (serializeLines [v]) } =
      (some [v], { fs with cacheFile := some (serializeLines [v]) }) := by
  have hg1 : entryValid { fs with cacheFile := some (serializeLines [g, v]) } g = false := hg
  have hv1 : entryValid { fs with cacheFile := some (serializeLines [g, v]) } v = true := hv
  have hw : ∀ x ∈ [g, v], wfPath x := by
    intro x hx
    rcases List.mem_cons.mp hx with h | h
    · exact h ▸ hwg
    · have hxv : x = v := by simpa using h
      exact hxv ▸ hwv
  constructor
  · rw [load_projects_from_cache_some _ (serializeLines [g, v]) rfl]
    simp only
    rw [rustLines_serializeLines [g, v] hw]
    simp [List.filter_cons, List.any_cons, hg1, hv1, save_projects_to_cache]
  · have hw2 : ∀ x ∈ [v], wfPath x := by
      intro x hx
      have hxv : x = v := by simpa using hx
      exact hxv ▸ hwv
    have hv2 : ∀ x ∈ [v],
        entryValid { fs with cacheFile := some (serializeLines [v]) } x = true := by
      intro x hx
      have hxv : x = v := by simpa using hx
      exact hxv ▸ hv
    rw [load_projects_from_cache_some _ (serializeLines [v]) rfl]
    simp only
    rw [rustLines_serializeLines [v] hw2]
    rw [List.filter_eq_self.mpr hv2]
    have hany : ([v].any fun l =>
        !entryValid { fs with cacheFile := some (serializeLines [v]) } l) = false := by
      rw [List.any_eq_false]
      intro x hx
      rw [hv2 x hx]
      simp
    rw [if_neg (by rw [hany]; simp)]

/-- C4 witness: a concrete vanished path and a concrete valid path. -/
theorem C4_self_healing_idempotent_witness :
    entryValid fsPlain "/r/gone" = false ∧ entryValid fsPlain "/r/ok" = true ∧
    load_projects_from_cache
        { fsPlain with cacheFile := some (serializeLines ["/r/gone", "/r/ok"]) } =
      (some ["/r/ok"], { fsPlain with cacheFile := some (serializeLines ["/r/ok"]) }) :=
  ⟨by decide, by decide,
    (C4_self_healing_idempotent fsPlain "/r/gone" "/r/ok"
      (by decide) (by decide) (by decide) (by decide)).1⟩

/-- C9: ignore filtering is applied on every resolution path — cached set,
forced refresh, missing cache, or explicit path override: no project whose
display name is in the Ignore Set loaded for the resolution survives. -/
theorem C9_resolution_always_ignores (fs : FS) (path : Option String) (force : Bool)
    (p : String) (hp : p ∈ (get_elixir_projects fs path force).1)
    (n : String) (hn : fileName p = some n) :
    n ∉ load_ignored_projects fs := by
  unfold get_elixir_projects at hp
  simp only at hp
  split at hp
  · exact not_mem_ignored_of_mem_filterIgnored hp hn
  · split at hp
    · exact not_mem_ignored_of_mem_filterIgnored hp hn
    · split at hp
      · exact not_mem_ignored_of_mem_filterIgnored hp hn
      · exact not_mem_ignored_of_mem_filterIgnored hp hn

/-- C9 witness: a scan-path resolution where the ignored project b is
filtered out and the surviving project a is indeed not ignored. -/
theorem C9_resolution_always_ignores_witness :
    "/r/a" ∈ (get_elixir_projects fsScan none false).1 ∧
    "a" ∉ load_ignored_projects fsScan :=
  ⟨by decide,
    C9_resolution_always_ignores fsScan none false "/r/a" (by decide) "a" (by decide)⟩

/-- C1 counterexample: a delete request whose filter is the empty string is
not refused — the empty filter substring-matches every name and the project
directory is removed. -/
theorem C1_empty_filter_counterexample :
    reqDeleteEmptyFilter.action = "delete" ∧
    reqDeleteEmptyFilter.project = some "" ∧
    (handle_elixir_projects envRemove fsDelete reqDeleteEmptyFilter).1 = "✓ Deleted b" ∧
    (handle_elixir_projects envRemove fsDelete reqDeleteEmptyFilter).2.pathExists "/r/b"
      = false :=
  ⟨rfl, rfl, rfl, rfl⟩

/-- C1 amended: delete refuses with the explicit error message exactly when
the project filter is absent, aborting with the state untouched (no
directory removed, empty-set check never reached); a present-but-empty
filter is accepted and matches every project. -/
theorem C1_delete_requires_filter (env : Env) (fs : FS) (projects : List String)
    (req : ElixirProjectsRequest) (h : req.project = none) :
    handle_delete env fs projects req =
      ("Error: \x27project\x27 filter is required for delete action", fs) := by
  unfold handle_delete
  rw [h]

/-- C1 witness: a concrete filterless delete request is refused. -/
theorem C1_delete_requires_filter_witness :
    handle_delete envFail fsDelete ["/r/b"] reqDeleteNone =
      ("Error: \x27project\x27 filter is required for delete action", fsDelete) :=
  C1_delete_requires_filter envFail fsDelete ["/r/b"] reqDeleteNone rfl

/-- C5 counterexample: a successful git pull whose combined output contains
the marker only in standard error is marked updated rather than up to date —
the code inspects standard output alone. -/
theorem C5_pull_marker_counterexample :
    hasSub ("" ++ "Already up to date") "Already up to date" = true ∧
    pullStatus (Except.ok { success := true, stdout := "", stderr := "Already up to date" })
      = "✓ (updated)" ∧
    "✓ (updated)" ≠ "✓ (up to date)" :=
  ⟨by decide, rfl, by decide⟩

/-- C5 amended: for a successfully exiting command, the pull status is
up-to-date iff the marker occurs in the captured standard output, and the
push status is up-to-date iff its marker occurs in the captured standard
error — not the combined output. -/
theorem C5_pull_push_marker_streams (o : CmdOut) (h : o.success = true) :
    (pullStatus (Except.ok o) = "✓ (up to date)" ↔
      hasSub o.stdout "Already up to date" = true) ∧
    (pushStatus (Except.ok o) = "✓ (up to date)" ↔
      hasSub o.stderr "Everything up-to-date" = true) := by
  constructor
  · cases hb : hasSub o.stdout "Already up to date" <;> simp [pullStatus, h, hb]
  · cases hb : hasSub o.stderr "Everything up-to-date" <;> simp [pushStatus, h, hb]

/-- C5 witness: concrete successful outputs carrying the markers in the
stream the code actually inspects. -/
theorem C5_pull_push_marker_streams_witness :
    outBoth.success = true ∧
    ((pullStatus (Except.ok outBoth) = "✓ (up to date)" ↔
        hasSub outBoth.stdout "Already up to date" = true) ∧
      (pushStatus (Except.ok outBoth) = "✓ (up to date)" ↔
        hasSub outBoth.stderr "Everything up-to-date" = true)) :=
  ⟨rfl, C5_pull_push_marker_streams outBoth rfl⟩

/-- C6 counterexample: with a single project whose hex.outdated invocation
fails to spawn, the ✗ line is pushed to the loop results yet the returned
report is the all-up-to-date summary and contains no ✗ line. -/
theorem C6_spawn_error_counterexample :
    outdatedEntry envFail "/r/a" = (some "\n✗ a - error: boom", false) ∧
    handle_outdated envFail ["/r/a"] = "All 1 projects are up to date!" :=
  ⟨rfl, rfl⟩

/-- C6 amended: a spawn failure is recorded as a ✗ line in the results and
does not abort the batch, but unlike a command failure it is not counted in
the flagged total; whenever the flagged total is zero, the report is the
all-up-to-date summary, which omits the recorded error lines. -/
theorem C6_spawn_error_policy (env : Env) (p e : String)
    (h : env.run "mix" ["hex.outdated"] p = Except.error e) :
    outdatedEntry env p = (some ("\n✗ " ++ displayName p ++ " - error: " ++ e), false) ∧
    (∀ ps1 ps2, outdatedResults env (ps1 ++ ps2) =
      outdatedResults env ps1 ++ outdatedResults env ps2) ∧
    (∀ ps, ps ≠ [] → outdatedFlagged env ps = 0 →
      handle_outdated env ps =
        "All " ++ toString ps.length ++ " projects are up to date!") := by
  refine ⟨?_, ?_, ?_⟩
  · unfold outdatedEntry
    rw [h]
  · intro ps1 ps2
    unfold outdatedResults
    exact List.filterMap_append ps1 ps2 _
  · intro ps hne hz
    have hemp : ps.isEmpty = false := List.isEmpty_eq_false.mpr hne
    unfold handle_outdated
    rw [hemp]
    simp only [Bool.false_eq_true, if_false]
    rw [if_pos hz]

/-- C6 witness: the spawn-error entry at a concrete environment. -/
theorem C6_spawn_error_policy_witness :
    envFail.run "mix" ["hex.outdated"] "/r/a" = Except.error "boom" ∧
    outdatedEntry envFail "/r/a" =
      (some ("\n✗ " ++ displayName "/r/a" ++ " - error: " ++ "boom"), false) :=
  ⟨rfl, (C6_spawn_error_policy envFail "/r/a" "boom" rfl).1⟩

/-- C7: after a delete batch attempts its removals (filter present, at least
one project matched), the cache file is unconditionally overwritten with the
serialized result of a fresh scan of the default root against the
post-removal filesystem — for every removal oracle, including one where
every deletion fails. -/
theorem C7_delete_rewrites_cache (env : Env) (fs : FS) (projects : List String)
    (req : ElixirProjectsRequest) (f : String) (hf : req.project = some f)
    (hne : projects ≠ []) :
    (handle_delete env fs projects req).2.cacheFile =
      some (serializeLines
        (scan_elixir_projects (handle_delete env fs projects req).2 none)) := by
  have hemp : projects.isEmpty = false := List.isEmpty_eq_false.mpr hne
  unfold handle_delete
  rw [hf]
  simp only [hemp, Bool.false_eq_true, if_false]
  rfl

/-- C7 witness: a concrete delete batch in which the single removal fails
and the cache is nevertheless overwritten with the rescan result. -/
theorem C7_delete_rewrites_cache_witness :
    reqDeleteB.project = some "b" ∧ (["/r/b"] : List String) ≠ [] ∧
    (handle_delete envFail fsDelete ["/r/b"] reqDeleteB).2.cacheFile =
      some (serializeLines
        (scan_elixir_projects (handle_delete envFail fsDelete ["/r/b"] reqDeleteB).2 none)) :=
  ⟨rfl, by decide,
    C7_delete_rewrites_cache envFail fsDelete ["/r/b"] reqDeleteB "b" rfl (by decide)⟩

/-- C8: each of the six batch variants returns its fixed empty-set message
on an empty filtered Project Set — No Elixir projects found, or No matching
projects found for delete — while a delete request missing its filter
returns the required-filter error and never reaches the empty-set check. -/
theorem C8_empty_set_messages (env : Env) (fs : FS) (req : ElixirProjectsRequest) :
    handle_update_deps env [] = "No Elixir projects found" ∧
    handle_outdated env [] = "No Elixir projects found" ∧
    handle_git_pull env [] = "No Elixir projects found" ∧
    handle_git_push env [] = "No Elixir projects found" ∧
    handle_git_status env [] = "No Elixir projects found" ∧
    (∀ f, req.project = some f →
      handle_delete env fs [] req = ("No matching projects found", fs)) ∧
    (∀ ps, req.project = none →
      handle_delete env fs ps req =
        ("Error: \x27project\x27 filter is required for delete action", fs)) := by
  refine ⟨rfl, rfl, rfl, rfl, rfl, ?_, ?_⟩
  · intro f hf
    unfold handle_delete
    rw [hf]
    rfl
  · intro ps hnone
    unfold handle_delete
    rw [hnone]

/-- C8 witness: the delete variant at an empty filtered set with a present
filter. -/
theorem C8_empty_set_messages_witness :
    handle_delete envFail fsPlain [] reqDeleteX = ("No matching projects found", fsPlain) :=
  (C8_empty_set_messages envFail fsPlain reqDeleteX).2.2.2.2.2.1 "x" rfl

/-- C10: resolution runs before action dispatch for every request: an
unknown action with no path override, issued when no cache file exists,
still scans the default root and writes the cache file before the
unknown-action message is returned. -/
theorem C10_unknown_action_still_resolves (env : Env) (fs : FS)
    (req : ElixirProjectsRequest)
    (ha : req.action ∉ (["list", "update_deps", "outdated", "git_pull", "git_push",
      "git_status", "refresh", "delete", "ignore", "unignore"] : List String))
    (hp : req.path = none) (hc : fs.cacheFile = none) :
    handle_elixir_projects env fs req =
      (unknownActionMsg req.action,
        save_projects_to_cache fs (scan_elixir_projects fs none)) := by
  have h1 : req.action ≠ "refresh" := fun h => ha (by rw [h]; simp)
  have h2 : req.action ≠ "list" := fun h => ha (by rw [h]; simp)
  have h3 : req.action ≠ "update_deps" := fun h => ha (by rw [h]; simp)
  have h4 : req.action ≠ "outdated" := fun h => ha (by rw [h]; simp)
  have h5 : req.action ≠ "git_pull" := fun h => ha (by rw [h]; simp)
  have h6 : req.action ≠ "git_push" := fun h => ha (by rw [h]; simp)
  have h7 : req.action ≠ "git_status" := fun h => ha (by rw [h]; simp)
  have h8 : req.action ≠ "delete" := fun h => ha (by rw [h]; simp)
  have h9 : req.action ≠ "ignore" := fun h => ha (by rw [h]; simp)
  have h10 : req.action ≠ "unignore" := fun h => ha (by rw [h]; simp)
  have hbeq : (req.action == "refresh") = false := beq_eq_false_iff_ne.mpr h1
  have hload : load_projects_from_cache fs = (none, fs) := by
    unfold load_projects_from_cache
    rw [hc]
  unfold handle_elixir_projects get_elixir_projects
  rw [hp, hbeq, hload]
  simp only [Bool.false_eq_true, if_false, h1, h2, h3, h4, h5, h6, h7, h8, h9, h10]

/-- C10 witness: the bogus action at a cacheless filesystem. -/
theorem C10_unknown_action_still_resolves_witness :
    reqBogus.path = none ∧ fsScan.cacheFile = none ∧
    handle_elixir_projects envFail fsScan reqBogus =
      (unknownActionMsg "bogus",
        save_projects_to_cache fsScan (scan_elixir_projects fsScan none)) :=
  ⟨rfl, rfl, C10_unknown_action_still_resolves envFail fsScan reqBogus (by decide) rfl rfl⟩

end Steve
